import Mathlib

/-!
Verification of the arena-simulation core of the game scripts in this
repository (game.py, game2.py, game2mod.py, game3.py).

Conventions of the embedding:
- Python floats are modelled as exact rationals (ℚ); every decimal constant in
  the sources (0.9, 0.12, 1.6, ...) is an exact rational.
- pygame `Vector2` is modelled as a pair of rationals with componentwise
  operations.
- `Vector2.length()` involves a square root, which does not exist in ℚ; every
  comparison `length < t` / `length > t` against a nonnegative threshold `t`
  in the sources is embedded as the equivalent comparison of squared lengths
  `lenSq < t^2` / `lenSq > t^2`.
- `Vector2.normalize()` returns the unit vector in the direction of its
  argument (irrational in general) and raises ValueError on the zero vector.
  The raise condition is modelled exactly; the returned unit vector is taken
  as a parameter `nrm : Vec2 → Vec2` of the definitions, so every theorem
  below holds for the actual normalization function in particular.
- Python's in-place mutation with a possible mid-function raise is modelled by
  returning a flag together with the record holding exactly the mutations
  performed before the raise point.
- Randomly drawn values (`random.uniform`, `random.randint`, `random.choice`)
  are passed to the definitions as explicit arguments, so the theorems
  quantify over every possible seed.
-/

/-! ### Shared vector / math utilities -/

/-- 2D vector over exact rationals (pygame Vector2). -/
abbrev Vec2 := ℚ × ℚ

/-- Componentwise vector addition. -/
def vadd (a b : Vec2) : Vec2 := (a.1 + b.1, a.2 + b.2)

/-- Componentwise vector subtraction. -/
def vsub (a b : Vec2) : Vec2 := (a.1 - b.1, a.2 - b.2)

/-- Scalar multiplication. -/
def vsmul (k : ℚ) (v : Vec2) : Vec2 := (k * v.1, k * v.2)

/-- `Vector2.length_squared()`: squared Euclidean length. -/
def lenSq (v : Vec2) : ℚ := v.1 * v.1 + v.2 * v.2

/-- game.py line 45 / game3.py line 52: `clamp(v, a, b) = max(a, min(b, v))`. -/
def clamp (v a b : ℚ) : ℚ := max a (min b v)

/-! ### game.py ("Modern Action") entities -/

/-- game.py configuration constants (lines 30-32). -/
def PLAYER_SPEED : ℚ := 320

def BULLET_SPEED : ℚ := 900

def ENEMY_SPEED : ℚ := 140

/-- Snapshot of the pressed keys consumed by the player updates
(game.py lines 117-128, game2mod.py lines 113-116). -/
structure Keys where
  up : Bool
  down : Bool
  left : Bool
  right : Bool
  shift : Bool

/-- game.py lines 116-124 / game2mod.py lines 112-116: raw move vector built
from the pressed direction keys, before normalization. -/
def moveFromKeys (k : Keys) : Vec2 :=
  ((if k.left then -1 else 0) + (if k.right then 1 else 0),
   (if k.up then -1 else 0) + (if k.down then 1 else 0))

/-- game.py Particle (lines 54-67): position, velocity, lifetime. -/
structure G1Particle where
  pos : Vec2
  vel : Vec2
  life : ℚ
  max_life : ℚ

/-- game.py Particle.update (lines 63-67): `life -= dt; pos += vel * dt;
vel *= 0.98`. -/
def g1ParticleUpdate (p : G1Particle) (dt : ℚ) : G1Particle :=
  { p with life := p.life - dt,
           pos := vadd p.pos (vsmul dt p.vel),
           vel := vsmul 0.98 p.vel }

/-- game.py Bullet (lines 81-91). -/
structure G1Bullet where
  pos : Vec2
  vel : Vec2
  life : ℚ
  radius : ℚ

/-- game.py Bullet.update (lines 89-91): `life -= dt; pos += vel * dt`. -/
def g1BulletUpdate (b : G1Bullet) (dt : ℚ) : G1Bullet :=
  { b with life := b.life - dt, pos := vadd b.pos (vsmul dt b.vel) }

/-- game.py Player (lines 101-113), simulation-relevant fields.
`firerateUp` is `self.upgrades["firerate"]`. -/
structure G1Player where
  pos : Vec2
  vel : Vec2
  speed : ℚ
  reload : ℚ
  fire_rate : ℚ
  dash_timer : ℚ
  firerateUp : ℚ

/-- game.py Player.update (lines 115-135). The move vector is built from the
keys, normalized when nonzero (`nrm` is the normalization function), the
velocity is smoothed toward `move * target_speed` with factor
`clamp(12*dt, 0, 1)`, and the new velocity is integrated into the position. -/
def g1PlayerUpdate (nrm : Vec2 → Vec2) (p : G1Player) (dt : ℚ) (k : Keys) :
    G1Player :=
  let move0 := moveFromKeys k
  let move := if 0 < lenSq move0 then nrm move0 else move0
  let ts := if k.shift then p.speed * 1.6 else p.speed
  let dash := if k.shift then (0.12 : ℚ) else p.dash_timer
  let vel := vadd p.vel (vsmul (clamp (12 * dt) 0 1) (vsub (vsmul ts move) p.vel))
  let pos := vadd p.pos (vsmul dt vel)
  let reload := max 0 (p.reload - dt * p.firerateUp)
  { p with pos := pos, vel := vel, reload := reload,
           dash_timer := if 0 < dash then dash - dt else dash }

/-- game.py Player.shoot lines 140-142: the vector handed to `normalize()` —
the direction from the player to the target, replaced by the default
direction `(1, 0)` when its squared length is zero. -/
def g1ShootNormArg (playerPos target : Vec2) : Vec2 :=
  let d := vsub target playerPos
  if lenSq d = 0 then (1, 0) else d

/-- game.py Enemy (lines 169-180), simulation-relevant fields. The behaviour
state is the string `"patrol"` or `"chase"` exactly as in the source. -/
structure G1Enemy where
  pos : Vec2
  vel : Vec2
  state : String
  wander_dir : Vec2
  change_timer : ℚ

/-- game.py Enemy.update (lines 182-202). Returns `(raised, enemy)`:
`raised = true` models the ValueError pygame raises when `normalize()` is
called on the zero vector (chase branch with coincident positions, line 191);
in that case the returned record holds exactly the mutations performed before
the raise (the state assignment of lines 185-188). `rdir`/`rtimer` are the
values `random.uniform` would produce for the wander re-roll (lines 195-198).
Distance thresholds 260/360 are compared on squared lengths. -/
def g1EnemyUpdate (nrm : Vec2 → Vec2) (e : G1Enemy) (dt : ℚ) (ppos : Vec2)
    (rdir : Vec2) (rtimer : ℚ) : Bool × G1Enemy :=
  let d2 := lenSq (vsub ppos e.pos)
  let st := if d2 < 260 ^ 2 then "chase"
            else if d2 > 360 ^ 2 then "patrol" else e.state
  if st = "chase" then
    if vsub ppos e.pos = ((0 : ℚ), (0 : ℚ)) then
      (true, { e with state := st })
    else
      let desired := vsmul ENEMY_SPEED (nrm (vsub ppos e.pos))
      let vel := vadd e.vel (vsmul (clamp (6 * dt) 0 1) (vsub desired e.vel))
      (false, { e with state := st, vel := vel,
                       pos := vadd e.pos (vsmul dt vel) })
  else
    let reroll := e.change_timer - dt ≤ 0
    let wd := if reroll then (if 0 < lenSq rdir then nrm rdir else rdir)
              else e.wander_dir
    let ct := if reroll then rtimer else e.change_timer - dt
    let desired := vsmul (ENEMY_SPEED * 0.6) wd
    let vel := vadd e.vel (vsmul (clamp (6 * dt) 0 1) (vsub desired e.vel))
    (false, { e with state := st, wander_dir := wd, change_timer := ct,
                     vel := vel, pos := vadd e.pos (vsmul dt vel) })

/-! ### game2.py ("Neon Runner") player -/

/-- game2.py configuration constants (lines 32-37). -/
def GRAVITY : ℚ := 2200

def PLAYER_RUN_SPEED : ℚ := 320

def G2_DASH_SPEED : ℚ := 700

def JUMP_V : ℚ := -740

def MAX_DOUBLE_JUMP : ℤ := 1

/-- game2.py Player (lines 78-91), simulation-relevant fields. `double_jumps`
is an integer (Python int) so that non-negativity is a real statement. -/
structure G2Player where
  pos : Vec2
  vel : Vec2
  on_ground : Bool
  double_jumps : ℤ
  dashing : Bool
  dash_timer : ℚ
  stamina : ℚ

/-- game2.py Player.jump (lines 96-106): on the ground, jump and refill the
double jumps; airborne with double jumps left, use one; otherwise do nothing
and report failure. Returns `(player, jumped)`. -/
def g2Jump (p : G2Player) : G2Player × Bool :=
  if p.on_ground then
    ({ p with vel := (p.vel.1, JUMP_V), on_ground := false,
              double_jumps := MAX_DOUBLE_JUMP }, true)
  else if 0 < p.double_jumps then
    ({ p with vel := (p.vel.1, JUMP_V * 0.9),
              double_jumps := p.double_jumps - 1 }, true)
  else (p, false)

/-- game2.py Player.update (lines 116-131): gravity while airborne, dash
overrides horizontal speed and burns its timer, otherwise fixed run speed and
stamina regeneration; finally `pos += vel * dt`. -/
def g2PlayerUpdate (p : G2Player) (dt : ℚ) : G2Player :=
  let vy := if p.on_ground then p.vel.2 else p.vel.2 + GRAVITY * dt
  if p.dashing then
    let t := p.dash_timer - dt
    let vel : Vec2 := (G2_DASH_SPEED, vy)
    { p with dash_timer := t, vel := vel,
             dashing := if t ≤ 0 then false else true,
             pos := vadd p.pos (vsmul dt vel) }
  else
    let vel : Vec2 := (PLAYER_RUN_SPEED, vy)
    { p with vel := vel, stamina := clamp (p.stamina + dt * 0.25) 0 1,
             pos := vadd p.pos (vsmul dt vel) }

/-- game2.py Game.update lines 338-342: landing on a platform top snaps the
player to the platform, zeroes vertical velocity, sets the on-ground flag and
refills the double jumps. -/
def g2Land (p : G2Player) (ytop : ℚ) : G2Player :=
  { p with pos := (p.pos.1, ytop), vel := (p.vel.1, 0),
           on_ground := true, double_jumps := MAX_DOUBLE_JUMP }

/-- The events that touch the game2.py player between two frames: a jump
attempt (Game.handle_input line 303), a physics tick (Game.update line 325),
or a landing (Game.update lines 338-342). -/
inductive G2Event
  | jump
  | tick (dt : ℚ)
  | land (ytop : ℚ)

/-- One game2.py player event. -/
def g2Step (p : G2Player) : G2Event → G2Player
  | .jump => (g2Jump p).1
  | .tick dt => g2PlayerUpdate p dt
  | .land y => g2Land p y

/-- A sequence of game2.py player events. -/
def g2Run (p : G2Player) : List G2Event → G2Player
  | [] => p
  | ev :: evs => g2Run (g2Step p ev) evs

/-- `true` for events that are not a landing (no ground contact). -/
def g2NotLand : G2Event → Bool
  | .land _ => false
  | _ => true

/-- Run a sequence of game2.py player events, also counting the successful
jumps (`Player.jump` calls that returned True). -/
def g2RunCount (p : G2Player) : List G2Event → G2Player × Nat
  | [] => (p, 0)
  | .jump :: evs =>
    let (p1, ok) := g2Jump p
    let (p2, c) := g2RunCount p1 evs
    (p2, c + (if ok then 1 else 0))
  | .tick dt :: evs => g2RunCount (g2PlayerUpdate p dt) evs
  | .land y :: evs => g2RunCount (g2Land p y) evs

/-- game2.py Game.start line 315: the fresh player. -/
def g2Init : G2Player :=
  { pos := (220, 320), vel := (0, 0), on_ground := false,
    double_jumps := MAX_DOUBLE_JUMP, dashing := false, dash_timer := 0,
    stamina := 1 }

/-! ### game2mod.py ("Cyber Arena") player, ammo and wave spawner -/

/-- game2mod.py configuration constants (lines 26-31). -/
def GM_PLAYER_SPEED : ℚ := 280

def PLAYER_AMMO : ℤ := 30

def RELOAD_TIME : ℚ := 1.5

/-- game2mod.py Player (lines 102-109), simulation-relevant fields. `ammo` is
an integer (Python int) so that the bounds are a real statement. -/
structure GMPlayer where
  pos : Vec2
  health : ℚ
  ammo : ℤ
  reloading : Bool
  reload_timer : ℚ
  score : ℤ

/-- game2mod.py Player.update (lines 111-125): normalized key movement
integrated at fixed speed; a running reload counts down and, once elapsed,
clears the reloading flag and refills the magazine to `PLAYER_AMMO`. -/
def gmPlayerUpdate (nrm : Vec2 → Vec2) (p : GMPlayer) (dt : ℚ) (k : Keys) :
    GMPlayer :=
  let move0 := moveFromKeys k
  let move := if 0 < lenSq move0 then nrm move0 else move0
  let pos := vadd p.pos (vsmul (GM_PLAYER_SPEED * dt) move)
  if p.reloading then
    let t := p.reload_timer - dt
    if t ≤ 0 then
      { p with pos := pos, reload_timer := t, reloading := false,
               ammo := PLAYER_AMMO }
    else { p with pos := pos, reload_timer := t }
  else { p with pos := pos }

/-- game2mod.py Game.handle_input lines 199-203: the R key starts a reload
only when not already reloading and the magazine is not full. -/
def gmKeyR (p : GMPlayer) : GMPlayer :=
  if p.reloading = false ∧ p.ammo < PLAYER_AMMO then
    { p with reloading := true, reload_timer := RELOAD_TIME }
  else p

/-- game2mod.py Game.handle_input lines 205-214: a held mouse button emits a
bullet only when `ammo > 0` and not reloading, and then decrements the ammo
by exactly one. Returns `(player, shotEmitted)`. -/
def gmShoot (p : GMPlayer) : GMPlayer × Bool :=
  if 0 < p.ammo ∧ p.reloading = false then
    ({ p with ammo := p.ammo - 1 }, true)
  else (p, false)

/-- The events that touch the game2mod.py ammo state: pressing R, a shot
attempt, or a physics tick. -/
inductive GMEvent
  | keyR
  | shoot
  | tick (dt : ℚ) (k : Keys)

/-- One game2mod.py ammo-state event. -/
def gmStep (nrm : Vec2 → Vec2) (p : GMPlayer) : GMEvent → GMPlayer
  | .keyR => gmKeyR p
  | .shoot => (gmShoot p).1
  | .tick dt k => gmPlayerUpdate nrm p dt k

/-- A sequence of game2mod.py ammo-state events. -/
def gmRun (nrm : Vec2 → Vec2) (p : GMPlayer) : List GMEvent → GMPlayer
  | [] => p
  | ev :: evs => gmRun nrm (gmStep nrm p ev) evs

/-- game2mod.py Game.start line 234: the fresh player (Player.__init__,
lines 102-109). -/
def gmInit : GMPlayer :=
  { pos := (500, 350), health := 100, ammo := PLAYER_AMMO,
    reloading := false, reload_timer := 0, score := 0 }

/-- game2mod.py enemy kinds (Enemy.__init__ lines 131-146 and the `types`
list of Game.spawn_wave line 217). -/
inductive EType
  | normal
  | fast
  | tank
  | boss
deriving DecidableEq

/-- game2mod.py Game.spawn_wave line 217: the kinds drawn from for a normal
wave. -/
def waveTypes : List EType := [.normal, .fast, .tank]

/-- game2mod.py Game.spawn_wave (lines 216-231): the kinds of the enemies
appended for wave `w`. On `w % 5 == 0` a single boss is spawned and the
function returns; otherwise `w*2` enemies are spawned, each kind chosen by
`random.choice(types)` — modelled by the index function `pick` (spawn
positions are irrelevant to kind and count and are omitted). -/
def spawnWave (w : Nat) (pick : Nat → Fin 3) : List EType :=
  if w % 5 = 0 then [.boss]
  else (List.range (w * 2)).map (fun i => waveTypes.get (pick i))

/-! ### game3.py ("Shadowforge") dungeon generation -/

/-- game3.py configuration (line 33-35): map size in tiles and the attempt
bound of the generator. -/
def MAP_W : Nat := 40

def MAP_H : Nat := 24

def ROOM_MIN : Nat := 5

def ROOM_MAX : Nat := 12

def MAX_ROOMS : Nat := 10

/-- game3.py RectRoom (lines 82-89). All coordinates produced by the
generator are nonnegative, so `Nat` is used; `center` uses `Nat` division,
which agrees with Python's `//` on nonnegative operands. -/
structure RectRoom where
  x : Nat
  y : Nat
  w : Nat
  h : Nat
deriving DecidableEq

/-- game3.py RectRoom line 85: `(x + w//2, y + h//2)`. -/
def RectRoom.center (r : RectRoom) : Nat × Nat := (r.x + r.w / 2, r.y + r.h / 2)

/-- game3.py RectRoom.intersects (lines 87-89): closed-rectangle overlap test
(touching rectangles count as intersecting). -/
def RectRoom.intersects (a b : RectRoom) : Bool :=
  decide (a.x ≤ b.x + b.w) && decide (a.x + a.w ≥ b.x) &&
  decide (a.y ≤ b.y + b.h) && decide (a.y + a.h ≥ b.y)

/-- The bounds check of the carving helpers (game3.py lines 102, 107, 112):
`0 <= i < MAP_W and 0 <= j < MAP_H` (the lower bounds are vacuous on `Nat`). -/
def inBounds (c : Nat × Nat) : Bool :=
  decide (c.1 < MAP_W) && decide (c.2 < MAP_H)

/-- game3.py Dungeon.create_room (lines 99-103): mark every in-bounds cell of
the room's rectangle as floor. The tile grid is modelled as its
characteristic function (cell ↦ is-floor). -/
def carveRoom (f : Nat × Nat → Bool) (r : RectRoom) : Nat × Nat → Bool :=
  fun c => f c || (inBounds c && decide (r.x ≤ c.1) && decide (c.1 < r.x + r.w)
                   && decide (r.y ≤ c.2) && decide (c.2 < r.y + r.h))

/-- game3.py Dungeon.create_h_tunnel (lines 105-108): carve the in-bounds
cells of the horizontal segment from `min x1 x2` to `max x1 x2` at row `y`. -/
def carveH (f : Nat × Nat → Bool) (x1 x2 y : Nat) : Nat × Nat → Bool :=
  fun c => f c || (inBounds c && decide (min x1 x2 ≤ c.1)
                   && decide (c.1 ≤ max x1 x2) && decide (c.2 = y))

/-- game3.py Dungeon.create_v_tunnel (lines 110-113): carve the in-bounds
cells of the vertical segment from `min y1 y2` to `max y1 y2` at column `x`. -/
def carveV (f : Nat × Nat → Bool) (y1 y2 x : Nat) : Nat × Nat → Bool :=
  fun c => f c || (inBounds c && decide (c.1 = x) && decide (min y1 y2 ≤ c.2)
                   && decide (c.2 ≤ max y1 y2))

/-- The mutable state of game3.py Dungeon.generate: the placed rooms and the
carved floor cells. -/
structure DungeonState where
  rooms : List RectRoom
  floor : Nat × Nat → Bool

/-- One iteration of the game3.py Dungeon.generate loop (lines 117-135) on
candidate room `cand` with corridor-direction draw `dir`
(`random.choice([True, False])`, line 129): a candidate intersecting any
placed room is skipped (`continue`); otherwise its cells are carved, an
L-shaped corridor is carved between the previous room's center and the new
room's center (horizontal-then-vertical when `dir`, else
vertical-then-horizontal), and the room is appended. -/
def dungeonStep (st : DungeonState) (cand : RectRoom) (dir : Bool) :
    DungeonState :=
  if st.rooms.any (fun r => cand.intersects r) then st
  else
    let f1 := carveRoom st.floor cand
    let f2 :=
      match st.rooms.getLast? with
      | none => f1
      | some prev =>
        if dir then
          carveV (carveH f1 prev.center.1 cand.center.1 prev.center.2)
            prev.center.2 cand.center.2 cand.center.1
        else
          carveH (carveV f1 prev.center.2 cand.center.2 prev.center.1)
            prev.center.1 cand.center.1 cand.center.2
    { rooms := st.rooms ++ [cand], floor := f2 }

/-- game3.py Dungeon.generate (lines 115-135): fold the per-candidate step
over the `MAX_ROOMS` randomly drawn candidates (each paired with its corridor
direction draw), starting from the all-wall grid (line 95). -/
def dungeonGenerate (cands : List (RectRoom × Bool)) : DungeonState :=
  cands.foldl (fun st cd => dungeonStep st cd.1 cd.2) ⟨[], fun _ => false⟩

/-- The constraints Dungeon.generate's `random.randint` draws (lines 118-121)
guarantee for every candidate room: `w,h ∈ [ROOM_MIN, ROOM_MAX]`,
`x ∈ [1, MAP_W - w - 2]`, `y ∈ [1, MAP_H - h - 2]`. -/
def RoomOK (r : RectRoom) : Prop :=
  ROOM_MIN ≤ r.w ∧ r.w ≤ ROOM_MAX ∧ ROOM_MIN ≤ r.h ∧ r.h ≤ ROOM_MAX ∧
  1 ≤ r.x ∧ r.x + r.w + 2 ≤ MAP_W ∧ 1 ≤ r.y ∧ r.y + r.h + 2 ≤ MAP_H

instance : DecidablePred RoomOK := fun r => by unfold RoomOK; infer_instance

/-- 4-adjacency of grid cells. -/
def Adj (a b : Nat × Nat) : Prop :=
  (a.1 = b.1 ∧ (a.2 + 1 = b.2 ∨ b.2 + 1 = a.2)) ∨
  (a.2 = b.2 ∧ (a.1 + 1 = b.1 ∨ b.1 + 1 = a.1))

/-- Reachability through floor cells: a path of 4-adjacent cells, all of
which are floor in `f`. -/
inductive Reach (f : Nat × Nat → Bool) : Nat × Nat → Nat × Nat → Prop
  | refl (a : Nat × Nat) (ha : f a = true) : Reach f a a
  | tail {a b c : Nat × Nat} (hr : Reach f a b) (hadj : Adj b c)
      (hc : f c = true) : Reach f a c

/-! ### game3.py projectile collision and enemies -/

/-- game3.py Projectile (lines 162-172). -/
structure G3Projectile where
  pos : Vec2
  vel : Vec2
  dmg : ℚ
  life : ℚ

/-- game3.py Projectile.update (lines 170-172): `pos += vel * dt;
life -= dt`. -/
def g3ProjectileUpdate (pr : G3Projectile) (dt : ℚ) : G3Projectile :=
  { pr with pos := vadd pr.pos (vsmul dt pr.vel), life := pr.life - dt }

/-- game3.py Enemy (lines 179-188), fields relevant to projectile hits. -/
structure G3Enemy where
  pos : Vec2
  hp : ℚ
  radius : ℚ

/-- game3.py Game.physics line 390: a player-owned projectile at `prPos`
overlaps enemy `e` when `(pr.pos - e.pos).length() < e.radius + 6`
(compared on squared lengths; `e.radius + 6 > 0` for the radii 14/20 used by
the game). -/
def g3Hit (prPos : Vec2) (e : G3Enemy) : Bool :=
  decide (lenSq (vsub prPos e.pos) < (e.radius + 6) ^ 2)

/-- game3.py Game.physics lines 388-397, the player-owned-projectile branch:
the projectile is checked against every enemy in order with no break; each
overlapping enemy takes `dmg` damage, and on each hit the projectile is
removed from the global projectile list (removal of an already removed
projectile is swallowed by the bare `try/except`, line 394-397). Returns the
updated enemies and whether the projectile was removed. -/
def g3ProjHits (prPos : Vec2) (dmg : ℚ) : List G3Enemy → List G3Enemy × Bool
  | [] => ([], false)
  | e :: es =>
    let rest := g3ProjHits prPos dmg es
    if g3Hit prPos e then ({ e with hp := e.hp - dmg } :: rest.1, true)
    else (e :: rest.1, rest.2)

/-- A concrete candidate stream (ten rooms, all satisfying the generator's
randint bounds and pairwise non-intersecting) used to evaluate the generator
on a closed input. -/
def sampleCands10 : List (RectRoom × Bool) :=
  [(⟨1, 1, 5, 5⟩, true), (⟨12, 1, 5, 5⟩, false), (⟨23, 1, 5, 5⟩, true),
   (⟨1, 8, 5, 5⟩, false), (⟨12, 8, 5, 5⟩, true), (⟨23, 8, 5, 5⟩, false),
   (⟨1, 15, 5, 5⟩, true), (⟨12, 15, 5, 5⟩, false), (⟨23, 15, 5, 5⟩, true),
   (⟨33, 1, 5, 5⟩, false)]

/-- The generator invariant carried through Dungeon.generate: the placed
rooms are pairwise non-intersecting, all satisfy the randint bounds, and
every placed room's center is reachable from the first placed room's center
through carved floor cells. -/
def DungeonInv (st : DungeonState) : Prop :=
  st.rooms.Pairwise (fun a b => a.intersects b = false) ∧
  (∀ r ∈ st.rooms, RoomOK r) ∧
  (∀ r0, st.rooms.head? = some r0 →
    ∀ r ∈ st.rooms, Reach st.floor r0.center r.center)

/-! ## Helper lemmas -/

/-! ### Vector arithmetic -/

theorem vsmul_zero (v : Vec2) : vsmul 0 v = ((0 : ℚ), (0 : ℚ)) := by
  simp [vsmul]

theorem vadd_vsmul_zero (p v : Vec2) : vadd p (vsmul 0 v) = p := by
  simp [vadd, vsmul]

/-! ### Reachability -/

theorem Reach.here {f : Nat × Nat → Bool} {a b : Nat × Nat}
    (h : Reach f a b) : f a = true ∧ f b = true := by
  induction h with
  | refl ha => exact ⟨ha, ha⟩
  | tail hr hadj hc ih => exact ⟨ih.1, hc⟩

theorem Reach.mono {f g : Nat × Nat → Bool}
    (hfg : ∀ c, f c = true → g c = true) {a b : Nat × Nat}
    (h : Reach f a b) : Reach g a b := by
  induction h with
  | refl ha => exact .refl _ (hfg _ ha)
  | tail hr hadj hc ih => exact .tail ih hadj (hfg _ hc)

theorem Reach.trans {f : Nat × Nat → Bool} {a b c : Nat × Nat}
    (h1 : Reach f a b) (h2 : Reach f b c) : Reach f a c := by
  induction h2 with
  | refl _ => exact h1
  | tail hr hadj hd ih => exact .tail ih hadj hd

theorem adj_swap {a b : Nat × Nat} (h : Adj a b) : Adj b a := by
  rcases h with ⟨h1, h2⟩ | ⟨h1, h2⟩
  · exact Or.inl ⟨h1.symm, h2.symm⟩
  · exact Or.inr ⟨h1.symm, h2.symm⟩

theorem reach_swap {f : Nat × Nat → Bool} {a b : Nat × Nat}
    (h : Reach f a b) : Reach f b a := by
  induction h with
  | refl ha => exact .refl _ ha
  | tail hr hadj hc ih =>
    exact Reach.trans (Reach.tail (.refl _ hc) (adj_swap hadj) hr.here.2) ih

theorem reach_hseg (f : Nat × Nat → Bool) (y a : Nat) :
    ∀ n : Nat, (∀ x, a ≤ x → x ≤ a + n → f (x, y) = true) →
    Reach f (a, y) (a + n, y) := by
  intro n
  induction n with
  | zero => intro h; exact .refl (a, y) (h a le_rfl (by omega))
  | succ m ih =>
    intro h
    refine @Reach.tail f (a, y) (a + m, y) (a + (m + 1), y)
      (ih (fun x hx1 hx2 => h x hx1 (by omega))) ?_ (h _ (by omega) (by omega))
    exact Or.inr ⟨rfl, Or.inl (by omega)⟩

theorem reach_h (f : Nat × Nat → Bool) (y a b : Nat)
    (h : ∀ x, min a b ≤ x → x ≤ max a b → f (x, y) = true) :
    Reach f (a, y) (b, y) := by
  rcases le_total a b with hab | hab
  · have := reach_hseg f y a (b - a)
      (fun x hx1 hx2 => h x (by omega) (by omega))
    rwa [Nat.add_sub_cancel' hab] at this
  · have := reach_hseg f y b (a - b)
      (fun x hx1 hx2 => h x (by omega) (by omega))
    rw [Nat.add_sub_cancel' hab] at this
    exact reach_swap this

theorem reach_vseg (f : Nat × Nat → Bool) (x a : Nat) :
    ∀ n : Nat, (∀ y, a ≤ y → y ≤ a + n → f (x, y) = true) →
    Reach f (x, a) (x, a + n) := by
  intro n
  induction n with
  | zero => intro h; exact .refl (x, a) (h a le_rfl (by omega))
  | succ m ih =>
    intro h
    refine @Reach.tail f (x, a) (x, a + m) (x, a + (m + 1))
      (ih (fun y hy1 hy2 => h y hy1 (by omega))) ?_ (h _ (by omega) (by omega))
    exact Or.inl ⟨rfl, Or.inl (by omega)⟩

theorem reach_v (f : Nat × Nat → Bool) (x a b : Nat)
    (h : ∀ y, min a b ≤ y → y ≤ max a b → f (x, y) = true) :
    Reach f (x, a) (x, b) := by
  rcases le_total a b with hab | hab
  · have := reach_vseg f x a (b - a)
      (fun y hy1 hy2 => h y (by omega) (by omega))
    rwa [Nat.add_sub_cancel' hab] at this
  · have := reach_vseg f x b (a - b)
      (fun y hy1 hy2 => h y (by omega) (by omega))
    rw [Nat.add_sub_cancel' hab] at this
    exact reach_swap this

/-! ### Dungeon generation -/

theorem intersects_true_iff (a b : RectRoom) :
    a.intersects b = true ↔
    (a.x ≤ b.x + b.w ∧ b.x ≤ a.x + a.w ∧ a.y ≤ b.y + b.h ∧ b.y ≤ a.y + a.h) := by
  simp only [RectRoom.intersects, ge_iff_le, Bool.and_eq_true, decide_eq_true_eq]
  tauto

theorem intersects_comm (a b : RectRoom) :
    a.intersects b = b.intersects a := by
  rw [Bool.eq_iff_iff, intersects_true_iff, intersects_true_iff]
  omega

theorem intersects_comm_false {a b : RectRoom} (h : a.intersects b = false) :
    b.intersects a = false := by
  rw [← intersects_comm]; exact h

theorem carveRoom_mono (f : Nat × Nat → Bool) (r : RectRoom) (c : Nat × Nat)
    (h : f c = true) : carveRoom f r c = true := by
  simp [carveRoom, h]

theorem carveH_mono (f : Nat × Nat → Bool) (x1 x2 y : Nat) (c : Nat × Nat)
    (h : f c = true) : carveH f x1 x2 y c = true := by
  simp [carveH, h]

theorem carveV_mono (f : Nat × Nat → Bool) (y1 y2 x : Nat) (c : Nat × Nat)
    (h : f c = true) : carveV f y1 y2 x c = true := by
  simp [carveV, h]

theorem carveRoom_cell (f : Nat × Nat → Bool) (r : RectRoom) (c : Nat × Nat)
    (h1 : c.1 < MAP_W) (h2 : c.2 < MAP_H) (h3 : r.x ≤ c.1)
    (h4 : c.1 < r.x + r.w) (h5 : r.y ≤ c.2) (h6 : c.2 < r.y + r.h) :
    carveRoom f r c = true := by
  simp only [carveRoom, inBounds, Bool.or_eq_true, Bool.and_eq_true,
    decide_eq_true_eq]
  exact Or.inr ⟨⟨⟨⟨⟨h1, h2⟩, h3⟩, h4⟩, h5⟩, h6⟩

theorem carveH_cell (f : Nat × Nat → Bool) (x1 x2 y : Nat) (c : Nat × Nat)
    (h1 : c.1 < MAP_W) (h2 : c.2 < MAP_H) (h3 : min x1 x2 ≤ c.1)
    (h4 : c.1 ≤ max x1 x2) (h5 : c.2 = y) :
    carveH f x1 x2 y c = true := by
  simp only [carveH, inBounds, Bool.or_eq_true, Bool.and_eq_true,
    decide_eq_true_eq]
  exact Or.inr ⟨⟨⟨⟨h1, h2⟩, h3⟩, h4⟩, h5⟩

theorem carveV_cell (f : Nat × Nat → Bool) (y1 y2 x : Nat) (c : Nat × Nat)
    (h1 : c.1 < MAP_W) (h2 : c.2 < MAP_H) (h3 : c.1 = x)
    (h4 : min y1 y2 ≤ c.2) (h5 : c.2 ≤ max y1 y2) :
    carveV f y1 y2 x c = true := by
  simp only [carveV, inBounds, Bool.or_eq_true, Bool.and_eq_true,
    decide_eq_true_eq]
  exact Or.inr ⟨⟨⟨⟨h1, h2⟩, h3⟩, h4⟩, h5⟩

theorem center_facts (r : RectRoom) (h : RoomOK r) :
    r.x ≤ r.center.1 ∧ r.center.1 < r.x + r.w ∧
    r.y ≤ r.center.2 ∧ r.center.2 < r.y + r.h ∧
    1 ≤ r.center.1 ∧ r.center.1 < MAP_W ∧
    1 ≤ r.center.2 ∧ r.center.2 < MAP_H := by
  obtain ⟨h1, h2, h3, h4, h5, h6, h7, h8⟩ := h
  have hw : r.w / 2 < r.w := Nat.div_lt_self (by
    unfold ROOM_MIN at h1; omega) (by norm_num)
  have hh : r.h / 2 < r.h := Nat.div_lt_self (by
    unfold ROOM_MIN at h3; omega) (by norm_num)
  unfold RectRoom.center
  refine ⟨by omega, by omega, by omega, by omega, by omega, by omega,
    by omega, by omega⟩

theorem reach_corridor_true (f : Nat × Nat → Bool) (px py nx ny : Nat)
    (hpx : px < MAP_W) (hpy : py < MAP_H) (hnx : nx < MAP_W)
    (hny : ny < MAP_H) :
    Reach (carveV (carveH f px nx py) py ny nx) (px, py) (nx, ny) := by
  refine Reach.trans (b := (nx, py)) ?_ ?_
  · refine reach_h _ py px nx (fun x hx1 hx2 => ?_)
    refine carveV_mono _ _ _ _ _ (carveH_cell f px nx py (x, py) ?_ hpy hx1 hx2 rfl)
    simp only
    calc x ≤ max px nx := hx2
    _ < MAP_W := by omega
  · refine reach_v _ nx py ny (fun y hy1 hy2 => ?_)
    refine carveV_cell _ py ny nx (nx, y) hnx ?_ rfl hy1 hy2
    simp only
    calc y ≤ max py ny := hy2
    _ < MAP_H := by omega

theorem reach_corridor_false (f : Nat × Nat → Bool) (px py nx ny : Nat)
    (hpx : px < MAP_W) (hpy : py < MAP_H) (hnx : nx < MAP_W)
    (hny : ny < MAP_H) :
    Reach (carveH (carveV f py ny px) px nx ny) (px, py) (nx, ny) := by
  refine Reach.trans (b := (px, ny)) ?_ ?_
  · refine reach_v _ px py ny (fun y hy1 hy2 => ?_)
    refine carveH_mono _ _ _ _ _ (carveV_cell f py ny px (px, y) hpx ?_ rfl hy1 hy2)
    simp only
    calc y ≤ max py ny := hy2
    _ < MAP_H := by omega
  · refine reach_h _ ny px nx (fun x hx1 hx2 => ?_)
    refine carveH_cell _ px nx ny (x, ny) ?_ hny hx1 hx2 rfl
    simp only
    calc x ≤ max px nx := hx2
    _ < MAP_W := by omega

theorem dungeonStep_inv (st : DungeonState) (cand : RectRoom) (dir : Bool)
    (hinv : DungeonInv st) (hcand : RoomOK cand) :
    DungeonInv (dungeonStep st cand dir) := by
  obtain ⟨hpw, hok, hreach⟩ := hinv
  by_cases hskip : st.rooms.any (fun r => cand.intersects r) = true
  · unfold dungeonStep
    rw [if_pos hskip]
    exact ⟨hpw, hok, hreach⟩
  · have hnotint : ∀ r ∈ st.rooms, cand.intersects r = false := by
      intro r hr
      rcases Bool.eq_false_or_eq_true (cand.intersects r) with h | h
      · exact absurd (List.any_eq_true.mpr ⟨r, hr, h⟩) hskip
      · exact h
    obtain ⟨ha1, ha2, ha3, ha4, ha5, ha6, ha7, ha8⟩ := center_facts cand hcand
    unfold dungeonStep
    rw [if_neg hskip]
    cases hlast : st.rooms.getLast? with
    | none =>
      have hnil : st.rooms = [] := List.getLast?_eq_none_iff.mp hlast
      simp only [hlast]
      refine ⟨?_, ?_, ?_⟩
      · rw [hnil]
        simp
      · intro r hr
        rw [hnil] at hr
        simp at hr
        rw [hr]
        exact hcand
      · intro r0 h0 r hr
        rw [hnil] at h0 hr
        simp at h0 hr
        rw [← h0, hr]
        exact .refl _ (carveRoom_cell st.floor cand cand.center ha6 ha8 ha1 ha2 ha3 ha4)
    | some prev =>
      have hprevmem : prev ∈ st.rooms := List.mem_of_getLast?_eq_some hlast
      obtain ⟨hb1, hb2, hb3, hb4, hb5, hb6, hb7, hb8⟩ :=
        center_facts prev (hok prev hprevmem)
      obtain ⟨r0, tl, hcons⟩ : ∃ r0 tl, st.rooms = r0 :: tl := by
        cases h : st.rooms with
        | nil => rw [h] at hprevmem; simp at hprevmem
        | cons r0 tl => exact ⟨r0, tl, rfl⟩
      simp only [hlast]
      have hmono : ∀ c, st.floor c = true →
          (if dir then
            carveV (carveH (carveRoom st.floor cand) prev.center.1 cand.center.1
              prev.center.2) prev.center.2 cand.center.2 cand.center.1
          else
            carveH (carveV (carveRoom st.floor cand) prev.center.2 cand.center.2
              prev.center.1) prev.center.1 cand.center.1 cand.center.2) c = true := by
        intro c hc
        cases dir with
        | true =>
          rw [if_pos rfl]
          exact carveV_mono _ _ _ _ _ (carveH_mono _ _ _ _ _ (carveRoom_mono _ _ _ hc))
        | false =>
          rw [if_neg Bool.false_ne_true]
          exact carveH_mono _ _ _ _ _ (carveV_mono _ _ _ _ _ (carveRoom_mono _ _ _ hc))
      have hcorr :
          Reach (if dir then
            carveV (carveH (carveRoom st.floor cand) prev.center.1 cand.center.1
              prev.center.2) prev.center.2 cand.center.2 cand.center.1
          else
            carveH (carveV (carveRoom st.floor cand) prev.center.2 cand.center.2
              prev.center.1) prev.center.1 cand.center.1 cand.center.2)
            prev.center cand.center := by
        cases dir with
        | true =>
          rw [if_pos rfl]
          exact reach_corridor_true (carveRoom st.floor cand) prev.center.1
            prev.center.2 cand.center.1 cand.center.2 hb6 hb8 ha6 ha8
        | false =>
          rw [if_neg Bool.false_ne_true]
          exact reach_corridor_false (carveRoom st.floor cand) prev.center.1
            prev.center.2 cand.center.1 cand.center.2 hb6 hb8 ha6 ha8
      refine ⟨?_, ?_, ?_⟩
      · rw [List.pairwise_append]
        refine ⟨hpw, by simp, ?_⟩
        intro a hamem b hbmem
        simp at hbmem
        rw [hbmem]
        exact intersects_comm_false (hnotint a hamem)
      · intro r hr
        rcases List.mem_append.mp hr with h | h
        · exact hok r h
        · simp at h
          rw [h]
          exact hcand
      · intro r0' h0 r hr
        rw [hcons] at h0
        simp at h0
        subst h0
        have hreach0 : ∀ r' ∈ st.rooms, Reach st.floor r0.center r'.center := by
          intro r' hr'
          exact hreach r0 (by rw [hcons]; rfl) r' hr'
        rcases List.mem_append.mp hr with h | h
        · exact (hreach0 r h).mono hmono
        · simp at h
          rw [h]
          exact Reach.trans ((hreach0 prev hprevmem).mono hmono) hcorr

theorem dungeonFold_inv (cands : List (RectRoom × Bool)) :
    ∀ st : DungeonState, DungeonInv st → (∀ rc ∈ cands, RoomOK rc.1) →
    DungeonInv (cands.foldl (fun s cd => dungeonStep s cd.1 cd.2) st) := by
  induction cands with
  | nil => intro st hinv _; exact hinv
  | cons cd rest ih =>
    intro st hinv hok
    exact ih (dungeonStep st cd.1 cd.2)
      (dungeonStep_inv st cd.1 cd.2 hinv (hok cd (by simp)))
      (fun rc hrc => hok rc (by simp [hrc]))

theorem dungeonInv_generate (cands : List (RectRoom × Bool))
    (hok : ∀ rc ∈ cands, RoomOK rc.1) : DungeonInv (dungeonGenerate cands) := by
  refine dungeonFold_inv cands _ ?_ hok
  exact ⟨List.Pairwise.nil, by simp, by simp⟩

theorem dungeonStep_len (st : DungeonState) (cand : RectRoom) (dir : Bool) :
    (dungeonStep st cand dir).rooms.length ≤ st.rooms.length + 1 := by
  unfold dungeonStep
  by_cases h : st.rooms.any (fun r => cand.intersects r) = true
  · rw [if_pos h]; omega
  · rw [if_neg h]; simp

theorem dungeonFold_len (cands : List (RectRoom × Bool)) :
    ∀ st : DungeonState,
    (cands.foldl (fun s cd => dungeonStep s cd.1 cd.2) st).rooms.length ≤
      st.rooms.length + cands.length := by
  induction cands with
  | nil => intro st; simp
  | cons cd rest ih =>
    intro st
    calc (List.foldl (fun s cd => dungeonStep s cd.1 cd.2)
            (dungeonStep st cd.1 cd.2) rest).rooms.length
        ≤ (dungeonStep st cd.1 cd.2).rooms.length + rest.length := ih _
      _ ≤ st.rooms.length + 1 + rest.length := by
          have := dungeonStep_len st cd.1 cd.2; omega
      _ = st.rooms.length + (cd :: rest).length := by simp; omega

theorem dungeonFold_len_eq (cands : List (RectRoom × Bool)) :
    ∀ st : DungeonState,
    cands.Pairwise (fun a b => a.1.intersects b.1 = false) →
    (∀ r ∈ st.rooms, ∀ c ∈ cands, r.intersects c.1 = false) →
    (cands.foldl (fun s cd => dungeonStep s cd.1 cd.2) st).rooms.length =
      st.rooms.length + cands.length := by
  induction cands with
  | nil => intro st _ _; simp
  | cons cd rest ih =>
    intro st hpw hsep
    have hany : st.rooms.any (fun r => cd.1.intersects r) = false := by
      rcases Bool.eq_false_or_eq_true (st.rooms.any (fun r => cd.1.intersects r))
        with h | h
      · obtain ⟨r, hr, hint⟩ := List.any_eq_true.mp h
        rw [intersects_comm] at hint
        rw [hsep r hr cd (by simp)] at hint
        exact absurd hint (by simp)
      · exact h
    have hrooms : (dungeonStep st cd.1 cd.2).rooms = st.rooms ++ [cd.1] := by
      unfold dungeonStep
      rw [if_neg (by rw [hany]; simp)]
    have hsep2 : ∀ r ∈ (dungeonStep st cd.1 cd.2).rooms, ∀ c ∈ rest,
        r.intersects c.1 = false := by
      intro r hr c hc
      rw [hrooms] at hr
      rcases List.mem_append.mp hr with h | h
      · exact hsep r h c (by simp [hc])
      · simp at h
        rw [h]
        exact (List.pairwise_cons.mp hpw).1 c hc
    rw [List.foldl_cons, ih (dungeonStep st cd.1 cd.2) hpw.of_cons hsep2, hrooms]
    simp only [List.length_append, List.length_cons, List.length_nil]
    omega

/-! ### game2mod.py ammo bounds -/

theorem gm_ammo_step (nrm : Vec2 → Vec2) (p : GMPlayer) (ev : GMEvent)
    (h0 : 0 ≤ p.ammo) (h1 : p.ammo ≤ PLAYER_AMMO) :
    0 ≤ (gmStep nrm p ev).ammo ∧ (gmStep nrm p ev).ammo ≤ PLAYER_AMMO := by
  cases ev with
  | keyR =>
    show 0 ≤ (gmKeyR p).ammo ∧ (gmKeyR p).ammo ≤ PLAYER_AMMO
    unfold gmKeyR
    by_cases h : p.reloading = false ∧ p.ammo < PLAYER_AMMO
    · rw [if_pos h]; exact ⟨h0, h1⟩
    · rw [if_neg h]; exact ⟨h0, h1⟩
  | shoot =>
    show 0 ≤ (gmShoot p).1.ammo ∧ (gmShoot p).1.ammo ≤ PLAYER_AMMO
    unfold gmShoot
    by_cases h : 0 < p.ammo ∧ p.reloading = false
    · rw [if_pos h]
      refine ⟨?_, ?_⟩ <;> simp <;> omega
    · rw [if_neg h]; exact ⟨h0, h1⟩
  | tick dt k =>
    show 0 ≤ (gmPlayerUpdate nrm p dt k).ammo ∧
        (gmPlayerUpdate nrm p dt k).ammo ≤ PLAYER_AMMO
    simp only [gmPlayerUpdate]
    by_cases hrel : p.reloading = true
    · rw [if_pos hrel]
      by_cases ht : p.reload_timer - dt ≤ 0
      · rw [if_pos ht]
        refine ⟨?_, ?_⟩ <;> simp [PLAYER_AMMO]
      · rw [if_neg ht]
        exact ⟨h0, h1⟩
    · rw [if_neg hrel]
      exact ⟨h0, h1⟩

theorem gm_ammo_run (nrm : Vec2 → Vec2) (evs : List GMEvent) :
    ∀ p : GMPlayer, 0 ≤ p.ammo → p.ammo ≤ PLAYER_AMMO →
    0 ≤ (gmRun nrm p evs).ammo ∧ (gmRun nrm p evs).ammo ≤ PLAYER_AMMO := by
  induction evs with
  | nil => intro p h0 h1; exact ⟨h0, h1⟩
  | cons ev rest ih =>
    intro p h0 h1
    obtain ⟨g0, g1⟩ := gm_ammo_step nrm p ev h0 h1
    exact ih (gmStep nrm p ev) g0 g1

/-! ### game2.py jump counting -/

theorem g2Jump_fields (p : G2Player) :
    ((g2Jump p).1.on_ground = false ∨ (g2Jump p).1 = p) ∧
    (p.on_ground = false → 0 ≤ p.double_jumps →
      0 ≤ (g2Jump p).1.double_jumps) := by
  unfold g2Jump
  by_cases hg : p.on_ground = true
  · rw [if_pos hg]
    refine ⟨Or.inl rfl, ?_⟩
    intro hng _
    rw [hg] at hng
    exact absurd hng (by simp)
  · rw [if_neg hg]
    by_cases hd : 0 < p.double_jumps
    · rw [if_pos hd]
      exact ⟨Or.inl (by simp [Bool.not_eq_true] at hg; exact hg), by intro _ _; simp; omega⟩
    · rw [if_neg hd]
      exact ⟨Or.inr rfl, by intro _ h; exact h⟩

theorem g2PlayerUpdate_keeps (p : G2Player) (dt : ℚ) :
    (g2PlayerUpdate p dt).on_ground = p.on_ground ∧
    (g2PlayerUpdate p dt).double_jumps = p.double_jumps := by
  unfold g2PlayerUpdate
  by_cases h : p.dashing = true
  · rw [if_pos h]; exact ⟨rfl, rfl⟩
  · rw [if_neg h]; exact ⟨rfl, rfl⟩

theorem g2RunCount_jump (p : G2Player) (evs : List G2Event) :
    (g2RunCount p (.jump :: evs)).2 =
      (g2RunCount (g2Jump p).1 evs).2 + (if (g2Jump p).2 then 1 else 0) := rfl

theorem g2Jump_ground (p : G2Player) (hg : p.on_ground = true) :
    g2Jump p =
      ({ p with
          vel := (p.vel.1, JUMP_V)
          on_ground := false
          double_jumps := MAX_DOUBLE_JUMP }, true) := by
  unfold g2Jump
  rw [if_pos hg]

theorem g2Jump_air (p : G2Player) (hg : p.on_ground = false)
    (hd : 0 < p.double_jumps) :
    g2Jump p =
      ({ p with
          vel := (p.vel.1, JUMP_V * 0.9)
          double_jumps := p.double_jumps - 1 }, true) := by
  unfold g2Jump
  rw [if_neg (by simp [hg]), if_pos hd]

theorem g2Jump_none (p : G2Player) (hg : p.on_ground = false)
    (hd : ¬ 0 < p.double_jumps) :
    g2Jump p = (p, false) := by
  unfold g2Jump
  rw [if_neg (by simp [hg]), if_neg hd]

theorem g2_count_bound (evs : List G2Event) :
    ∀ p : G2Player, (∀ e ∈ evs, g2NotLand e = true) → 0 ≤ p.double_jumps →
    ((g2RunCount p evs).2 : ℤ) ≤
      (if p.on_ground = true then 1 + MAX_DOUBLE_JUMP else p.double_jumps) := by
  induction evs with
  | nil =>
    intro p _ hd
    rcases Bool.eq_false_or_eq_true p.on_ground with hg | hg
    · rw [hg, if_pos rfl]
      unfold MAX_DOUBLE_JUMP
      simp [g2RunCount]
    · rw [hg, if_neg (by simp)]
      simpa [g2RunCount] using hd
  | cons ev rest ih =>
    intro p hnl hd
    cases ev with
    | land y => exact absurd (hnl (.land y) (by simp)) (by simp [g2NotLand])
    | tick dt =>
      have hk := g2PlayerUpdate_keeps p dt
      have hih := ih (g2PlayerUpdate p dt) (fun e he => hnl e (by simp [he]))
        (by rw [hk.2]; exact hd)
      rw [hk.1, hk.2] at hih
      exact hih
    | jump =>
      rcases Bool.eq_false_or_eq_true p.on_ground with hg | hg
      · rw [g2RunCount_jump, g2Jump_ground p hg]
        have hih := ih
          { p with
              vel := (p.vel.1, JUMP_V)
              on_ground := false
              double_jumps := MAX_DOUBLE_JUMP }
          (fun e he => hnl e (by simp [he])) (by unfold MAX_DOUBLE_JUMP; simp)
        simp [hg, MAX_DOUBLE_JUMP] at hih ⊢
        omega
      · by_cases hdj : 0 < p.double_jumps
        · rw [g2RunCount_jump, g2Jump_air p hg hdj]
          have hih := ih
            { p with
                vel := (p.vel.1, JUMP_V * 0.9)
                double_jumps := p.double_jumps - 1 }
            (fun e he => hnl e (by simp [he])) (by simp; omega)
          simp [hg] at hih ⊢
          omega
        · rw [g2RunCount_jump, g2Jump_none p hg hdj]
          have hih := ih p (fun e he => hnl e (by simp [he])) hd
          simp [hg] at hih ⊢
          omega

theorem g2_dj_nonneg_run (evs : List G2Event) :
    ∀ p : G2Player, 0 ≤ p.double_jumps →
    0 ≤ (g2Run p evs).double_jumps := by
  induction evs with
  | nil => intro p h; exact h
  | cons ev rest ih =>
    intro p h
    refine ih (g2Step p ev) ?_
    cases ev with
    | jump =>
      unfold g2Step g2Jump
      by_cases hg : p.on_ground = true
      · rw [if_pos hg]; unfold MAX_DOUBLE_JUMP; simp
      · rw [if_neg hg]
        by_cases hd : 0 < p.double_jumps
        · rw [if_pos hd]; simp; omega
        · rw [if_neg hd]; exact h
    | tick dt =>
      show 0 ≤ (g2PlayerUpdate p dt).double_jumps
      rw [(g2PlayerUpdate_keeps p dt).2]
      exact h
    | land y =>
      unfold g2Step g2Land
      unfold MAX_DOUBLE_JUMP
      simp

/-! ## Claim theorems -/

/-- Claim C1, counterexample: in game3.py's physics (lines 388-397) a single
live player-owned projectile overlapping two enemies damages BOTH in the same
tick — the per-enemy loop has no break, so "one projectile damages at most
one target entity per tick" is false. Concretely, a pistol projectile
(dmg 18) at the position of two kind-0 enemies (radius 14, hp 40) leaves both
at hp 22: two enemies are damaged, not at most one. -/
theorem c1_single_hit_counterexample :
    (g3ProjHits (0, 0) 18 [⟨(0, 0), 40, 14⟩, ⟨(0, 0), 40, 14⟩]).1 =
      [⟨(0, 0), 22, 14⟩, ⟨(0, 0), 22, 14⟩] ∧
    (g3ProjHits (0, 0) 18 [⟨(0, 0), 40, 14⟩, ⟨(0, 0), 40, 14⟩]).2 = true ∧
    ((g3ProjHits (0, 0) 18 [⟨(0, 0), 40, 14⟩, ⟨(0, 0), 40, 14⟩]).1.filter
      (fun e => decide (e.hp < 40))).length = 2 := by
  have hhit : g3Hit 0 ⟨0, 40, 14⟩ = true := by
    simp only [g3Hit, lenSq, vsub, decide_eq_true_eq]
    norm_num
  refine ⟨?_, ?_, ?_⟩ <;>
    simp [g3ProjHits, hhit, List.filter] <;> norm_num

/-- Claim C1, amended: whenever a live projectile overlaps a valid target the
projectile is removed from the projectile collection in that same tick (it is
removed iff some enemy overlaps), and its damage is subtracted from EVERY
overlapping target's health in that tick — in the roguelite variant a
projectile overlapping several enemies damages each of them, so single-hit
per tick does not hold; non-overlapping enemies are unchanged. -/
theorem c1_hit_removes_and_damages_each (prPos : Vec2) (dmg : ℚ)
    (es : List G3Enemy) :
    ((g3ProjHits prPos dmg es).2 = true ↔ ∃ e ∈ es, g3Hit prPos e = true) ∧
    (g3ProjHits prPos dmg es).1 =
      es.map (fun e => if g3Hit prPos e then { e with hp := e.hp - dmg }
              else e) := by
  induction es with
  | nil => simp [g3ProjHits]
  | cons e es ih =>
    by_cases h : g3Hit prPos e = true
    · have hred : g3ProjHits prPos dmg (e :: es) =
          ({ e with hp := e.hp - dmg } :: (g3ProjHits prPos dmg es).1, true) := by
        simp only [g3ProjHits]
        rw [if_pos h]
      rw [hred]
      constructor
      · simp [h]
      · simp [h, ih.2]
    · have hred : g3ProjHits prPos dmg (e :: es) =
          (e :: (g3ProjHits prPos dmg es).1, (g3ProjHits prPos dmg es).2) := by
        simp only [g3ProjHits]
        rw [if_neg h]
      rw [hred]
      constructor
      · show (g3ProjHits prPos dmg es).2 = true ↔ _
        rw [ih.1]
        simp [h]
      · simp [h, ih.2]

/-- Claim C2: game.py Enemy.update aggro hysteresis — if the distance to the
player is below the enter threshold 260 the state is `"chase"` at the end of
the same tick; from `"chase"` the state becomes `"patrol"` only when the
distance exceeds the strictly larger exit threshold 360; between the two
thresholds the state is unchanged (distances compared on squares). -/
theorem c2_enemy_hysteresis (nrm : Vec2 → Vec2) (e : G1Enemy) (dt : ℚ)
    (ppos rdir : Vec2) (rtimer : ℚ) :
    (lenSq (vsub ppos e.pos) < 260 ^ 2 →
      ((g1EnemyUpdate nrm e dt ppos rdir rtimer).2).state = "chase") ∧
    (e.state = "chase" →
      ((g1EnemyUpdate nrm e dt ppos rdir rtimer).2).state = "patrol" →
      lenSq (vsub ppos e.pos) > 360 ^ 2) ∧
    (260 ^ 2 ≤ lenSq (vsub ppos e.pos) → lenSq (vsub ppos e.pos) ≤ 360 ^ 2 →
      ((g1EnemyUpdate nrm e dt ppos rdir rtimer).2).state = e.state) ∧
    ((260 : ℚ) < 360) := by
  have hstate : ((g1EnemyUpdate nrm e dt ppos rdir rtimer).2).state =
      (if lenSq (vsub ppos e.pos) < 260 ^ 2 then "chase"
       else if lenSq (vsub ppos e.pos) > 360 ^ 2 then "patrol"
       else e.state) := by
    simp only [g1EnemyUpdate]
    by_cases h1 : lenSq (vsub ppos e.pos) < 260 ^ 2
    · rw [if_pos h1, if_pos rfl]
      by_cases h2 : vsub ppos e.pos = ((0 : ℚ), (0 : ℚ))
      · rw [if_pos h2]
      · rw [if_neg h2]
    · rw [if_neg h1]
      by_cases h3 : lenSq (vsub ppos e.pos) > 360 ^ 2
      · rw [if_pos h3, if_neg (by decide : ¬("patrol" = "chase"))]
      · rw [if_neg h3]
        by_cases h4 : e.state = "chase"
        · rw [if_pos h4]
          by_cases h2 : vsub ppos e.pos = ((0 : ℚ), (0 : ℚ))
          · rw [if_pos h2]
          · rw [if_neg h2]
        · rw [if_neg h4]
  refine ⟨?_, ?_, ?_, by norm_num⟩
  · intro h
    rw [hstate, if_pos h]
  · intro hch hpat
    rw [hstate] at hpat
    by_cases h1 : lenSq (vsub ppos e.pos) < 260 ^ 2
    · rw [if_pos h1] at hpat
      simp at hpat
    · rw [if_neg h1] at hpat
      by_cases h2 : lenSq (vsub ppos e.pos) > 360 ^ 2
      · exact h2
      · rw [if_neg h2] at hpat
        rw [hch] at hpat
        simp at hpat
  · intro h1 h2
    rw [hstate, if_neg (not_lt.mpr h1), if_neg (not_lt.mpr h2)]

/-- Claim C2, witness: an enemy at the origin in `"patrol"` with the player
100 units away (100² < 260²) is in `"chase"` at the end of the tick. -/
theorem c2_enemy_hysteresis_witness :
    ((g1EnemyUpdate (fun v => v) ⟨(0, 0), (0, 0), "patrol", (1, 0), 2⟩
      (1/60) (100, 0) (1, 0) 2).2).state = "chase" :=
  (c2_enemy_hysteresis (fun v => v) ⟨(0, 0), (0, 0), "patrol", (1, 0), 2⟩
    (1/60) (100, 0) (1, 0) 2).1 (by norm_num [lenSq, vsub])

/-- Claim C4: game2mod.py Game.spawn_wave — for wave `w` with `w % 5 == 0`
exactly one enemy is spawned and it is the boss kind; otherwise exactly `w*2`
enemies are spawned and none of them is the boss kind, for every sequence of
random kind draws. -/
theorem c4_wave_spawner (w : Nat) (pick : Nat → Fin 3) :
    (w % 5 = 0 → spawnWave w pick = [EType.boss]) ∧
    (w % 5 ≠ 0 →
      (spawnWave w pick).length = w * 2 ∧
      ∀ t ∈ spawnWave w pick, t ≠ EType.boss) := by
  constructor
  · intro h
    simp [spawnWave, h]
  · intro h
    constructor
    · simp [spawnWave, h]
    · intro t ht
      simp [spawnWave, h] at ht
      obtain ⟨i, hlt, hieq⟩ := ht
      have hall : ∀ j : Fin 3, waveTypes.get j ≠ EType.boss := by decide
      rw [← hieq]
      exact hall (pick i)

/-- Claim C4, witness: wave 5 spawns exactly the boss; wave 3 spawns six
enemies. -/
theorem c4_wave_spawner_witness :
    spawnWave 5 (fun i => ⟨i % 3, by omega⟩) = [EType.boss] ∧
    (spawnWave 3 (fun i => ⟨i % 3, by omega⟩)).length = 6 :=
  ⟨(c4_wave_spawner 5 (fun i => ⟨i % 3, by omega⟩)).1 rfl,
   ((c4_wave_spawner 3 (fun i => ⟨i % 3, by omega⟩)).2 (by decide)).1⟩

/-- Claim C5: the player-shoot path always hands a nonzero vector to
`normalize()` (the zero direction is replaced by the default `(1, 0)`,
game.py lines 140-143) — but game.py Enemy.update does NOT handle the zero
vector: with the enemy exactly at the player's position the chase branch
calls `normalize()` on the zero vector and raises a ValueError (flag `true`)
instead of substituting a default direction, contradicting the claim for
enemy chase movement. -/
theorem c5_zero_vector_normalization :
    (∀ p t : Vec2, 0 < lenSq (g1ShootNormArg p t)) ∧
    ((g1EnemyUpdate (fun v => v) ⟨(100, 100), (0, 0), "patrol", (1, 0), 2⟩
        (1/60) (100, 100) (1, 0) 2).1 = true) := by
  constructor
  · intro p t
    unfold g1ShootNormArg
    by_cases h : lenSq (vsub t p) = 0
    · rw [if_pos h]
      norm_num [lenSq]
    · rw [if_neg h]
      have hnn : 0 ≤ lenSq (vsub t p) := by
        unfold lenSq
        have h1 := mul_self_nonneg (vsub t p).1
        have h2 := mul_self_nonneg (vsub t p).2
        linarith
      exact lt_of_le_of_ne hnn (Ne.symm h)
  · simp only [g1EnemyUpdate]
    norm_num [vsub, lenSq]

/-- Claim C3: for every seed — i.e. for every candidate stream satisfying the
bounds `random.randint` guarantees — after Dungeon.generate completes, no two
placed rooms' rectangles intersect (pairwise, under the source's closed
intersection test), and every placed room's center is reachable from the
first placed room's center through a path of carved floor cells (consecutive
rooms are joined by an L-shaped corridor between their centers). -/
theorem c3_dungeon_rooms_disjoint_connected (cands : List (RectRoom × Bool))
    (hok : ∀ rc ∈ cands, RoomOK rc.1) :
    (dungeonGenerate cands).rooms.Pairwise
      (fun a b => a.intersects b = false) ∧
    (∀ r0, (dungeonGenerate cands).rooms.head? = some r0 →
      ∀ r ∈ (dungeonGenerate cands).rooms,
        Reach (dungeonGenerate cands).floor r0.center r.center) := by
  obtain ⟨h1, _, h3⟩ := dungeonInv_generate cands hok
  exact ⟨h1, h3⟩

/-- Claim C3, witness: a concrete ten-candidate stream within the randint
bounds; the generator's rooms are pairwise non-intersecting. -/
theorem c3_dungeon_witness :
    (∀ rc ∈ sampleCands10, RoomOK rc.1) ∧
    (dungeonGenerate sampleCands10).rooms.Pairwise
      (fun a b => a.intersects b = false) :=
  ⟨by decide,
   (c3_dungeon_rooms_disjoint_connected sampleCands10 (by decide)).1⟩

/-- Claim C6: dungeon generation makes exactly `MAX_ROOMS` candidate
attempts (the loop of game3.py line 117 is a fold over `MAX_ROOMS` draws, so
it always terminates): the number of placed rooms never exceeds `MAX_ROOMS`
(overlapping candidates are skipped, degrading to fewer rooms), and when no
candidate intersects another the full `MAX_ROOMS` rooms are placed. -/
theorem c6_generation_bounded (cands : List (RectRoom × Bool))
    (hlen : cands.length = MAX_ROOMS) :
    (dungeonGenerate cands).rooms.length ≤ MAX_ROOMS ∧
    (cands.Pairwise (fun a b => a.1.intersects b.1 = false) →
      (dungeonGenerate cands).rooms.length = MAX_ROOMS) := by
  constructor
  · have h := dungeonFold_len cands ⟨[], fun _ => false⟩
    unfold dungeonGenerate
    simp only [List.length_nil] at h
    omega
  · intro hpw
    have h := dungeonFold_len_eq cands ⟨[], fun _ => false⟩ hpw (by simp)
    unfold dungeonGenerate
    simp only [List.length_nil] at h
    omega

/-- Claim C6, witness: the concrete ten-candidate stream has exactly
`MAX_ROOMS` candidates, they are pairwise non-intersecting, and the generator
places exactly `MAX_ROOMS` rooms. -/
theorem c6_generation_bounded_witness :
    sampleCands10.length = MAX_ROOMS ∧
    (dungeonGenerate sampleCands10).rooms.length = MAX_ROOMS :=
  ⟨rfl, (c6_generation_bounded sampleCands10 rfl).2 (by decide)⟩

/-- Claim C7: the smoothing scenario, evaluated exactly over ℚ — a game.py
player at (0,0) with velocity (0,0), only the right key pressed (unit move
vector (1,0), which the normalization fixes), speed 320, smoothing constant
12, dt = 1/60: after one update the velocity is exactly
(320 * min(12/60, 1), 0) = (64, 0) and the position is exactly (64/60, 0). -/
theorem c7_player_smoothing_scenario (nrm : Vec2 → Vec2)
    (hnrm : nrm (1, 0) = (1, 0)) :
    (g1PlayerUpdate nrm ⟨(0, 0), (0, 0), 320, 0, 0.12, 0, 1⟩ (1/60)
      ⟨false, false, false, true, false⟩).vel = (320 * min (12/60 : ℚ) 1, 0) ∧
    (g1PlayerUpdate nrm ⟨(0, 0), (0, 0), 320, 0, 0.12, 0, 1⟩ (1/60)
      ⟨false, false, false, true, false⟩).vel = (64, 0) ∧
    (g1PlayerUpdate nrm ⟨(0, 0), (0, 0), 320, 0, 0.12, 0, 1⟩ (1/60)
      ⟨false, false, false, true, false⟩).pos = (64/60, 0) := by
  refine ⟨?_, ?_, ?_⟩ <;>
    simp only [g1PlayerUpdate, moveFromKeys] <;>
    norm_num [hnrm, clamp, vadd, vsub, vsmul, lenSq, min_def, max_def,
      Prod.ext_iff]

/-- Claim C7, witness: the scenario evaluated with the identity in place of
the normalization (which fixes (1,0)). -/
theorem c7_player_smoothing_scenario_witness :
    (g1PlayerUpdate (fun v => v) ⟨(0, 0), (0, 0), 320, 0, 0.12, 0, 1⟩ (1/60)
      ⟨false, false, false, true, false⟩).vel = (64, 0) ∧
    (g1PlayerUpdate (fun v => v) ⟨(0, 0), (0, 0), 320, 0, 0.12, 0, 1⟩ (1/60)
      ⟨false, false, false, true, false⟩).pos = (64/60, 0) :=
  ⟨(c7_player_smoothing_scenario (fun v => v) rfl).2.1,
   (c7_player_smoothing_scenario (fun v => v) rfl).2.2⟩

/-- Claim C8: for every dynamic entity of the games — game.py player, enemy
(including the branch where its update raises), bullet and particle, game2.py
player, game2mod.py player, game3.py projectile — an update with `dt = 0`
leaves the position unchanged, whatever the input state. -/
theorem c8_zero_dt_keeps_position :
    (∀ (nrm : Vec2 → Vec2) (p : G1Player) (k : Keys),
      (g1PlayerUpdate nrm p 0 k).pos = p.pos) ∧
    (∀ (nrm : Vec2 → Vec2) (e : G1Enemy) (ppos rdir : Vec2) (rtimer : ℚ),
      ((g1EnemyUpdate nrm e 0 ppos rdir rtimer).2).pos = e.pos) ∧
    (∀ b : G1Bullet, (g1BulletUpdate b 0).pos = b.pos) ∧
    (∀ pt : G1Particle, (g1ParticleUpdate pt 0).pos = pt.pos) ∧
    (∀ p : G2Player, (g2PlayerUpdate p 0).pos = p.pos) ∧
    (∀ (nrm : Vec2 → Vec2) (p : GMPlayer) (k : Keys),
      (gmPlayerUpdate nrm p 0 k).pos = p.pos) ∧
    (∀ pr : G3Projectile, (g3ProjectileUpdate pr 0).pos = pr.pos) := by
  refine ⟨?_, ?_, ?_, ?_, ?_, ?_, ?_⟩
  · intro nrm p k
    simp [g1PlayerUpdate, vadd, vsmul]
  · intro nrm e ppos rdir rtimer
    simp only [g1EnemyUpdate]
    split_ifs <;> simp [vadd, vsmul]
  · intro b
    simp [g1BulletUpdate, vadd, vsmul]
  · intro pt
    simp [g1ParticleUpdate, vadd, vsmul]
  · intro p
    simp only [g2PlayerUpdate]
    split <;> simp [vadd, vsmul]
  · intro nrm p k
    simp only [gmPlayerUpdate]
    split
    · split <;> simp [vadd, vsmul]
    · simp [vadd, vsmul]
  · intro pr
    simp [g3ProjectileUpdate, vadd, vsmul]

/-- Claim C9: game2mod.py ammo bounds — from the fresh player, after any
sequence of R-key presses, shot attempts and ticks, `0 ≤ ammo ≤ PLAYER_AMMO`
holds; a shot is emitted only when `ammo > 0` and not reloading and then
decrements ammo by exactly one; a completed reload sets ammo to exactly
`PLAYER_AMMO`. -/
theorem c9_ammo_bounds (nrm : Vec2 → Vec2) (evs : List GMEvent) :
    (0 ≤ (gmRun nrm gmInit evs).ammo ∧
      (gmRun nrm gmInit evs).ammo ≤ PLAYER_AMMO) ∧
    (∀ p : GMPlayer, (gmShoot p).2 = true →
      0 < p.ammo ∧ p.reloading = false ∧ (gmShoot p).1.ammo = p.ammo - 1) ∧
    (∀ (p : GMPlayer) (dt : ℚ) (k : Keys), p.reloading = true →
      p.reload_timer - dt ≤ 0 →
      (gmPlayerUpdate nrm p dt k).ammo = PLAYER_AMMO) := by
  refine ⟨gm_ammo_run nrm evs gmInit (by decide) (by decide), ?_, ?_⟩
  · intro p h
    unfold gmShoot at h ⊢
    by_cases hc : 0 < p.ammo ∧ p.reloading = false
    · rw [if_pos hc] at h ⊢
      exact ⟨hc.1, hc.2, rfl⟩
    · rw [if_neg hc] at h
      simp at h
  · intro p dt k hrel ht
    simp only [gmPlayerUpdate]
    rw [if_pos hrel, if_pos ht]

/-- Claim C9, witness: a shot, an R press and a completing tick from the
fresh player keep ammo within bounds; a first shot decrements 30 to 29. -/
theorem c9_ammo_bounds_witness :
    (0 ≤ (gmRun (fun v => v) gmInit [GMEvent.shoot, GMEvent.keyR,
        GMEvent.tick 2 ⟨false, false, false, false, false⟩]).ammo ∧
      (gmRun (fun v => v) gmInit [GMEvent.shoot, GMEvent.keyR,
        GMEvent.tick 2 ⟨false, false, false, false, false⟩]).ammo ≤
        PLAYER_AMMO) ∧
    (gmShoot gmInit).1.ammo = gmInit.ammo - 1 :=
  ⟨(c9_ammo_bounds (fun v => v) [GMEvent.shoot, GMEvent.keyR,
      GMEvent.tick 2 ⟨false, false, false, false, false⟩]).1,
   ((c9_ammo_bounds (fun v => v) []).2.1 gmInit (by decide)).2.2⟩

/-- Claim C10: game2.py jump rules — a jump attempt while airborne with zero
remaining double jumps returns the player unchanged with result False;
starting from the ground, any sequence of jump attempts and ticks with no
landing in between yields at most `1 + MAX_DOUBLE_JUMP` successful jumps; and
the double-jump counter never becomes negative along any event sequence. -/
theorem c10_jump_rules (p : G2Player) (evs : List G2Event) :
    (p.on_ground = false → p.double_jumps = 0 → g2Jump p = (p, false)) ∧
    (p.on_ground = true → 0 ≤ p.double_jumps →
      (∀ e ∈ evs, g2NotLand e = true) →
      ((g2RunCount p evs).2 : ℤ) ≤ 1 + MAX_DOUBLE_JUMP) ∧
    (0 ≤ p.double_jumps → 0 ≤ (g2Run p evs).double_jumps) := by
  refine ⟨?_, ?_, ?_⟩
  · intro hg hd
    exact g2Jump_none p hg (by omega)
  · intro hg hd hnl
    have h := g2_count_bound evs p hnl hd
    rw [hg, if_pos rfl] at h
    exact h
  · intro hd
    exact g2_dj_nonneg_run evs p hd

/-- Claim C10, witness: an airborne player with no double jumps left fails to
jump unchanged; a grounded player attempting three jumps in a row succeeds at
most twice; the counter stays nonnegative from the fresh player. -/
theorem c10_jump_rules_witness :
    g2Jump ⟨(0, 0), (0, 0), false, 0, false, 0, 1⟩ =
      (⟨(0, 0), (0, 0), false, 0, false, 0, 1⟩, false) ∧
    ((g2RunCount ⟨(220, 320), (0, 0), true, 1, false, 0, 1⟩
      [G2Event.jump, G2Event.jump, G2Event.jump]).2 : ℤ) ≤
      1 + MAX_DOUBLE_JUMP ∧
    0 ≤ (g2Run g2Init [G2Event.jump]).double_jumps :=
  ⟨(c10_jump_rules ⟨(0, 0), (0, 0), false, 0, false, 0, 1⟩ []).1 rfl rfl,
   (c10_jump_rules ⟨(220, 320), (0, 0), true, 1, false, 0, 1⟩
      [G2Event.jump, G2Event.jump, G2Event.jump]).2.1 rfl (by decide)
      (by decide),
   (c10_jump_rules g2Init [G2Event.jump]).2.2 (by decide)⟩
